import Mathlib

/-!
Shallow embedding of the EchoVR game-server sidecar (`main.go`) and proofs
about the claims of its specification.

The embedding models, from the source:
  - the allocation-watch shutdown scheduler (`shutdownAfterNAllocations`),
  - the API caching proxy (`NewAPICachingProxy`, `queryAPI`, `handleRequest`),
  - the token-bucket rate limiter (`golang.org/x/time/rate`, as instantiated),
  - the API-port resolution in `main`,
  - the FIFO log-drain setup in `NewGameEngine`,
  - the login TCP proxy (`TCPProxy.Start`, `TCPProxy.handleConnection`).
-/

namespace EvrGameServer

/-! ## Allocation-watch shutdown scheduler (`shutdownAfterNAllocations`)

The watch callback fires on every game-server notification.  When the
`agones.dev/last-allocated` annotation differs from the stored one it
updates the stored marker, decrements `remainingIterations`, and schedules
a delayed action that snapshots the decremented counter: `Ready` if the
snapshot is `> 0`, `Shutdown` otherwise. -/

inductive SchedulerAction where
  | ready
  | shutdown
deriving DecidableEq

/-- Body of the goroutine scheduled by the watch callback, applied to the
snapshot `iterations` it was given (source: `if iterations > 0 { Ready } else { Shutdown }`). -/
def delayedAction (iterations : Int) : SchedulerAction :=
  if iterations > 0 then SchedulerAction.ready else SchedulerAction.shutdown

/-- The two variables protected by the mutex `m` in `shutdownAfterNAllocations`. -/
structure WatchState where
  lastAllocated : String
  remainingIterations : Int
deriving DecidableEq

/-- One firing of the `WatchGameServer` callback with incoming marker `la`
(the notification's `agones.dev/last-allocated` annotation).  Returns the
updated state and the action scheduled by the spawned goroutine, if any. -/
def watchCallback (st : WatchState) (la : String) : WatchState × Option SchedulerAction :=
  if st.lastAllocated ≠ la then
    ({ lastAllocated := la, remainingIterations := st.remainingIterations - 1 },
     some (delayedAction (st.remainingIterations - 1)))
  else
    (st, none)

/-- Run the watch callback over a sequence of notification markers,
collecting the scheduled actions in order. -/
def watchRun (st : WatchState) : List String → WatchState × List SchedulerAction
  | [] => (st, [])
  | la :: rest =>
    let out := watchCallback st la
    let outRest := watchRun out.1 rest
    (outRest.1, out.2.toList ++ outRest.2)

/-- Initial watch state: the marker captured from the game server at
subscription time and `remainingIterations = readyIterations`. -/
def initialWatchState (marker : String) (readyIterations : Nat) : WatchState :=
  { lastAllocated := marker, remainingIterations := (readyIterations : Int) }

/-- A marker sequence in which every notification is an allocation
transition: each marker differs from the previously stored one. -/
def isTransitionSeq : String → List String → Bool
  | _, [] => true
  | prev, m :: ms => (prev != m) && isTransitionSeq m ms

theorem watchRun_actions (r : Int) (m0 : String) (ms : List String)
    (h : isTransitionSeq m0 ms = true) :
    (watchRun ⟨m0, r⟩ ms).2
      = (List.range ms.length).map (fun (i : Nat) => delayedAction (r - 1 - (i : Int))) := by
  induction ms generalizing m0 r with
  | nil => rfl
  | cons m rest ih =>
    rw [isTransitionSeq, Bool.and_eq_true, bne_iff_ne] at h
    obtain ⟨hne, hrest⟩ := h
    rw [List.length_cons, List.range_succ_eq_map, List.map_cons, List.map_map]
    show (watchRun ⟨m0, r⟩ (m :: rest)).2 = _
    rw [watchRun]
    simp only [watchCallback, if_pos hne]
    rw [ih (r - 1) m hrest]
    simp only [Option.toList_some, List.singleton_append, Nat.cast_zero, sub_zero,
      List.cons.injEq, Function.comp]
    refine ⟨trivial, ?_⟩
    apply List.map_congr_left
    intro i _
    congr 1
    push_cast
    ring

theorem watchRun_state (r : Int) (m0 : String) (ms : List String)
    (h : isTransitionSeq m0 ms = true) :
    (watchRun ⟨m0, r⟩ ms).1.remainingIterations = r - (ms.length : Int) := by
  induction ms generalizing m0 r with
  | nil => simp [watchRun]
  | cons m rest ih =>
    rw [isTransitionSeq, Bool.and_eq_true, bne_iff_ne] at h
    obtain ⟨hne, hrest⟩ := h
    rw [watchRun]
    simp only [watchCallback, if_pos hne]
    rw [ih (r - 1) m hrest, List.length_cons]
    push_cast
    ring

theorem not_ready_of_nonpos (st : WatchState) (hr : st.remainingIterations ≤ 0)
    (ms : List String) :
    SchedulerAction.ready ∉ (watchRun st ms).2 := by
  induction ms generalizing st with
  | nil => simp [watchRun]
  | cons m rest ih =>
    rw [watchRun]
    by_cases h : st.lastAllocated = m
    · simp only [watchCallback, h, ne_eq, not_true_eq_false, if_false, Option.toList_none,
        List.nil_append]
      exact ih st hr
    · simp only [watchCallback, ne_eq, h, not_false_eq_true, if_true, Option.toList_some,
        List.singleton_append, List.mem_cons, not_or]
      constructor
      · rw [delayedAction, if_neg (by omega)]
        intro hcontra
        exact SchedulerAction.noConfusion hcontra
      · exact ih _ (by simpa using by omega)

/-- Claim C1, counterexample: with `readyIterations = 1` (so `k = 1 > 0`) the
very first allocation-transition event schedules a shutdown, not a return to
ready — contradicting the claim that the first `k` events each produce a
"return to ready" call and that no shutdown occurs before the `(k+1)`-th event. -/
theorem watch_k1_first_event_is_shutdown :
    (watchRun (initialWatchState "" 1) ["alloc-1"]).2 = [SchedulerAction.shutdown] := by
  decide

/-- Claim C1, amended: with `readyIterations = k > 0` and any sequence of
allocation-transition notifications, the `i`-th observed transition (0-based)
schedules a "return to ready" when `i + 1 < k` — i.e. exactly the first
`k - 1` events — and a "request shutdown" from the `k`-th event on; in
particular no shutdown is scheduled before the `k`-th event and the `k`-th
event schedules exactly one shutdown. -/
theorem watch_ready_iterations_schedule (m0 : String) (k : Nat) (ms : List String)
    (_hk : 0 < k) (h : isTransitionSeq m0 ms = true) :
    (watchRun (initialWatchState m0 k) ms).2
      = (List.range ms.length).map
          (fun i => if i + 1 < k then SchedulerAction.ready else SchedulerAction.shutdown) := by
  rw [initialWatchState, watchRun_actions _ _ _ h]
  apply List.map_congr_left
  intro i _
  rw [delayedAction]
  by_cases hik : i + 1 < k
  · rw [if_pos (by omega), if_pos hik]
  · rw [if_neg (by omega), if_neg hik]

/-- Witness for `watch_ready_iterations_schedule` at `k = 2` and three
transition events: the schedule is ready, shutdown, shutdown. -/
theorem watch_ready_iterations_schedule_witness :
    (watchRun (initialWatchState "" 2) ["a", "b", "c"]).2
      = (List.range (["a", "b", "c"] : List String).length).map
          (fun i => if i + 1 < 2 then SchedulerAction.ready else SchedulerAction.shutdown) :=
  watch_ready_iterations_schedule "" 2 ["a", "b", "c"] (by decide) (by decide)

/-- Claim C6, counterexample: with `readyIterations = 0` a single observed
allocation transition leaves `remainingIterations = -1 < 0`, so the invariant
`remainingIterations ≥ 0` does not hold in every reachable state. -/
theorem watch_remaining_iterations_negative :
    (watchRun (initialWatchState "" 0) ["alloc-1"]).1.remainingIterations < 0 := by
  decide

/-- Claim C6, amended: the counter is decremented once per observed
allocation transition with no lower bound: after `n` transitions from initial
`readyIterations = k` it equals `k - n`, which is negative as soon as more
than `k` transitions are observed. -/
theorem watch_remaining_iterations_eq (m0 : String) (k : Nat) (ms : List String)
    (h : isTransitionSeq m0 ms = true) :
    (watchRun (initialWatchState m0 k) ms).1.remainingIterations
      = (k : Int) - (ms.length : Int) :=
  watchRun_state (k : Int) m0 ms h

/-- Witness for `watch_remaining_iterations_eq`: from `readyIterations = 2`,
three transitions leave the counter at `-1`. -/
theorem watch_remaining_iterations_eq_witness :
    (watchRun (initialWatchState "" 2) ["a", "b", "c"]).1.remainingIterations
      = (2 : Int) - ((["a", "b", "c"] : List String).length : Int) :=
  watch_remaining_iterations_eq "" 2 ["a", "b", "c"] (by decide)

/-- Claim C9: with `readyIterations = 0`, the very first observed allocation
transition schedules a "request shutdown" as its delayed action, and no
"return to ready" is ever scheduled on any continuation of the run. -/
theorem watch_zero_iterations_shutdown_first (m0 m : String) (ms : List String)
    (h : m0 ≠ m) :
    (watchRun (initialWatchState m0 0) (m :: ms)).2.head? = some SchedulerAction.shutdown
      ∧ SchedulerAction.ready ∉ (watchRun (initialWatchState m0 0) (m :: ms)).2 := by
  constructor
  · rw [watchRun]
    simp only [initialWatchState, watchCallback, ne_eq, h, not_false_eq_true, if_true,
      Option.toList_some, List.singleton_append, List.head?_cons, Option.some.injEq]
    rw [delayedAction, if_neg (by omega)]
  · rw [watchRun]
    simp only [initialWatchState, watchCallback, ne_eq, h, not_false_eq_true, if_true,
      Option.toList_some, List.singleton_append, List.mem_cons, not_or]
    constructor
    · rw [delayedAction, if_neg (by omega)]
      intro hcontra
      exact SchedulerAction.noConfusion hcontra
    · exact not_ready_of_nonpos _ (by norm_num) ms

/-- Witness for `watch_zero_iterations_shutdown_first` at a single transition. -/
theorem watch_zero_iterations_shutdown_first_witness :
    (watchRun (initialWatchState "" 0) ["a"]).2.head? = some SchedulerAction.shutdown
      ∧ SchedulerAction.ready ∉ (watchRun (initialWatchState "" 0) ["a"]).2 :=
  watch_zero_iterations_shutdown_first "" "a" [] (by decide)

/-! ## API caching proxy (`APICachingProxy.queryAPI`, `APICachingProxy.handleRequest`)

`queryAPI` calls `http.Get`; on error it only logs ("Evr GET Error") and then
unconditionally dereferences `resp.Body` — with a nil `resp` this panics.  On
success it reads the body with `io.ReadAll`, logs a read error (but still uses
the bytes read so far), and returns the body string regardless of the HTTP
status code.  `handleRequest` consults the rate limiter; on a granted token it
takes the write lock, fetches, stores and echoes; on a denied token it serves
the cached value under the read lock. -/

/-- What the upstream produced for one `http.Get` that returned a non-nil
response: the HTTP status, the bytes `io.ReadAll` returned (a possibly
partial body when `readErr = true`), and whether the read errored. -/
structure UpstreamResp where
  statusCode : Nat
  bodyRead : String
  readErr : Bool
deriving DecidableEq

/-- Result of running Go code that may panic (a nil-pointer dereference). -/
inductive Outcome (α : Type) where
  | panicked
  | value (a : α)
deriving DecidableEq

/-- Embedding of `queryAPI`.  `getResult = none` means `http.Get` returned an
error, so `resp` is nil and the subsequent `resp.Body` access panics.  On a
non-nil response the function returns whatever `io.ReadAll` produced — also
when the read errored partway or the status code was not 200. -/
def queryAPI (getResult : Option UpstreamResp) : Outcome String :=
  match getResult with
  | none => Outcome.panicked
  | some resp => Outcome.value resp.bodyRead

/-- The reply `handleRequest` writes: the implicit 200 status of the first
`Write`, the content type it sets, and the body it prints. -/
structure HTTPReply where
  status : Nat
  contentType : String
  body : String
deriving DecidableEq

def jsonReply (body : String) : HTTPReply :=
  { status := 200, contentType := "application/json", body := body }

/-- The proxy state visible to `handleRequest`: the cache string and whether
the write lock was orphaned by a panicked handler (a panic between `p.Lock()`
and `p.Unlock()` leaves the mutex locked forever, so every later handler
blocks on `p.Lock()` or `p.RLock()`). -/
structure ProxyState where
  cachedData : String
  lockHeld : Bool
deriving DecidableEq

/-- One inbound request to `/session`: the limiter verdict
(`p.limiter.Allow()`) and the upstream behaviour seen by this request. -/
structure SessionRequest where
  allow : Bool
  getResult : Option UpstreamResp
deriving DecidableEq

/-- Embedding of `handleRequest`.  A reply of `none` means the handler never
completed a response: it blocked forever on the orphaned lock, or it panicked
inside `queryAPI` (the connection is dropped without a 200). -/
def handleRequest (st : ProxyState) (rq : SessionRequest) : ProxyState × Option HTTPReply :=
  if rq.allow then
    if st.lockHeld then (st, none)
    else
      match queryAPI rq.getResult with
      | Outcome.panicked => ({ st with lockHeld := true }, none)
      | Outcome.value data => ({ st with cachedData := data }, some (jsonReply data))
  else
    if st.lockHeld then (st, none)
    else (st, some (jsonReply st.cachedData))

/-- Proxy state right after `NewAPICachingProxy`: empty cache, lock free. -/
def initialProxyState : ProxyState := { cachedData := "", lockHeld := false }

/-- Run the handler over a trace of inbound requests. -/
def proxyRun (st : ProxyState) : List SessionRequest → ProxyState × List (Option HTTPReply)
  | [] => (st, [])
  | rq :: rest =>
    let out := handleRequest st rq
    let outRest := proxyRun out.1 rest
    (outRest.1, out.2 :: outRest.2)

/-- Body a request stores into the cache, when it performs an upstream fetch
that completes: a granted token and a non-nil `http.Get` response. -/
def fetchedBody (rq : SessionRequest) : Option String :=
  if rq.allow then rq.getResult.map UpstreamResp.bodyRead else none

/-- No request in the trace hits a `http.Get` transport error (every granted
request sees a non-nil response). -/
def noGetError (rqs : List SessionRequest) : Bool :=
  rqs.all (fun rq => !rq.allow || rq.getResult.isSome)

/-- The most recent completed-fetch body over a trace, starting from `c`. -/
def lastFetchedFrom (c : String) : List SessionRequest → String
  | [] => c
  | rq :: rest => lastFetchedFrom ((fetchedBody rq).getD c) rest

theorem proxyRun_cachedData (st : ProxyState) (hlock : st.lockHeld = false)
    (rqs : List SessionRequest) (h : noGetError rqs = true) :
    (proxyRun st rqs).1.cachedData = lastFetchedFrom st.cachedData rqs
      ∧ (proxyRun st rqs).1.lockHeld = false := by
  induction rqs generalizing st with
  | nil => exact ⟨rfl, hlock⟩
  | cons rq rest ih =>
    rw [noGetError, List.all_cons, Bool.and_eq_true] at h
    obtain ⟨hrq, hrest⟩ := h
    rw [proxyRun, lastFetchedFrom]
    by_cases ha : rq.allow = true
    · simp only [ha, Bool.not_true, Bool.false_or] at hrq
      obtain ⟨resp, hresp⟩ := Option.isSome_iff_exists.mp hrq
      simp [handleRequest, ha, hlock, hresp, queryAPI, fetchedBody]
      exact ih { cachedData := resp.bodyRead, lockHeld := false } rfl hrest
    · simp [handleRequest, ha, hlock, fetchedBody]
      exact ih st hlock hrest

/-- Claim C2, code bug: on an upstream `http.Get` error the handler does not
complete any HTTP response at all — `queryAPI` dereferences the nil `resp`
and panics, the cached value is not served, and the orphaned write lock makes
every subsequent request (granted or denied) block without a reply. -/
theorem handleRequest_get_error_panics :
    queryAPI none = Outcome.panicked
      ∧ (handleRequest { cachedData := "cached", lockHeld := false }
          { allow := true, getResult := none }).2 = none
      ∧ (handleRequest { cachedData := "cached", lockHeld := false }
          { allow := true, getResult := none }).1.lockHeld = true
      ∧ (handleRequest { cachedData := "cached", lockHeld := true }
          { allow := false, getResult := none }).2 = none := by
  refine ⟨rfl, rfl, rfl, rfl⟩

/-- Claim C5, counterexample: a permitted request whose body read fails
partway (`io.ReadAll` error after "par") still installs the partial bytes as
the cached value, so a partially read fetch does become the cached value. -/
theorem cachedData_caches_partial_read :
    (proxyRun initialProxyState
        [{ allow := true,
           getResult := some { statusCode := 200, bodyRead := "par", readErr := true } }]).1.cachedData
      = "par" := by
  decide

/-- Claim C5, amended: as long as no `http.Get` transport error occurs (such
an error panics the handler and wedges the lock), `cachedData` always holds
the body returned by the most recent completed permitted fetch — including
partially read bodies on `io.ReadAll` errors and bodies of non-200 upstream
responses — or the initial empty string before the first fetch. -/
theorem cachedData_is_last_fetched (rqs : List SessionRequest)
    (h : noGetError rqs = true) :
    (proxyRun initialProxyState rqs).1.cachedData = lastFetchedFrom "" rqs :=
  (proxyRun_cachedData initialProxyState rfl rqs h).1

/-- Witness for `cachedData_is_last_fetched`: a granted fetch of "a", a
denied request, then a granted fetch of "b" leave "b" in the cache. -/
theorem cachedData_is_last_fetched_witness :
    (proxyRun initialProxyState
        [{ allow := true, getResult := some { statusCode := 200, bodyRead := "a", readErr := false } },
         { allow := false, getResult := none },
         { allow := true, getResult := some { statusCode := 500, bodyRead := "b", readErr := false } }]).1.cachedData
      = lastFetchedFrom ""
          [{ allow := true, getResult := some { statusCode := 200, bodyRead := "a", readErr := false } },
           { allow := false, getResult := none },
           { allow := true, getResult := some { statusCode := 500, bodyRead := "b", readErr := false } }] :=
  cachedData_is_last_fetched _ (by decide)

/-! ## Rate limiter (`golang.org/x/time/rate`) as used by `NewAPICachingProxy`

`NewAPICachingProxy` stores the `frequency` argument in the proxy struct but
constructs the limiter as `rate.NewLimiter(rate.Limit(30), 1)` — a literal 30,
not the frequency.  A fresh limiter starts with a full bucket. -/

/-- A `rate.Limiter`: `tokenRate` tokens accrue per second up to `burst`;
`tokens` is the current fill and `lastTime` the time (in seconds) of the
last update. -/
structure Limiter where
  tokenRate : ℚ
  burst : ℚ
  tokens : ℚ
  lastTime : ℚ
deriving DecidableEq

/-- Advance the limiter to time `t`, accruing `tokenRate` tokens per elapsed
second, capped at `burst`. -/
def Limiter.advance (l : Limiter) (t : ℚ) : Limiter :=
  { l with tokens := min l.burst (l.tokens + (t - l.lastTime) * l.tokenRate), lastTime := t }

/-- `Allow` at time `t`: advance to `t`, then grant and consume one token
exactly when at least one token is available. -/
def Limiter.allowAt (l : Limiter) (t : ℚ) : Bool × Limiter :=
  let la := l.advance t
  if 1 ≤ la.tokens then (true, { la with tokens := la.tokens - 1 }) else (false, la)

/-- Run `Allow` over a sequence of request times, counting grants. -/
def limiterRun (l : Limiter) : List ℚ → Limiter × Nat
  | [] => (l, 0)
  | t :: ts =>
    let out := l.allowAt t
    let outRest := limiterRun out.2 ts
    (outRest.1, (if out.1 then 1 else 0) + outRest.2)

/-- The `APICachingProxy` fields set by `NewAPICachingProxy`. -/
structure APICachingProxy where
  cachedData : String
  originPort : Nat
  listenPort : Nat
  frequency : Nat
  limiter : Limiter
deriving DecidableEq

/-- Embedding of `NewAPICachingProxy`: the cache starts empty, the ports and
the `frequency` argument are stored, and the limiter is
`rate.NewLimiter(rate.Limit(30), 1)` — rate 30 and burst 1 regardless of
`frequency` — starting full at time 0. -/
def NewAPICachingProxy (originPort proxyPort frequency : Nat) : APICachingProxy :=
  { cachedData := ""
    originPort := originPort
    listenPort := proxyPort
    frequency := frequency
    limiter := { tokenRate := 30, burst := 1, tokens := 1, lastTime := 0 } }

theorem advance_tokenRate (l : Limiter) (t : ℚ) : (l.advance t).tokenRate = l.tokenRate := rfl

theorem advance_burst (l : Limiter) (t : ℚ) : (l.advance t).burst = l.burst := rfl

theorem advance_tokens (l : Limiter) (t : ℚ) :
    (l.advance t).tokens = min l.burst (l.tokens + (t - l.lastTime) * l.tokenRate) := rfl

theorem advance_lastTime (l : Limiter) (t : ℚ) : (l.advance t).lastTime = t := rfl

theorem allowAt_grant (l : Limiter) (t : ℚ) (h : 1 ≤ (l.advance t).tokens) :
    l.allowAt t = (true, { l.advance t with tokens := (l.advance t).tokens - 1 }) := by
  rw [Limiter.allowAt, if_pos h]

theorem allowAt_deny (l : Limiter) (t : ℚ) (h : ¬ 1 ≤ (l.advance t).tokens) :
    l.allowAt t = (false, l.advance t) := by
  rw [Limiter.allowAt, if_neg h]

theorem limiterRun_cons (l : Limiter) (t : ℚ) (ts : List ℚ) :
    limiterRun l (t :: ts)
      = ((limiterRun (l.allowAt t).2 ts).1,
         (if (l.allowAt t).1 then 1 else 0) + (limiterRun (l.allowAt t).2 ts).2) := rfl

theorem limiterRun_grants_le (ts : List ℚ) (l : Limiter) (T : ℚ)
    (hchain : List.Chain (fun a b => a ≤ b) l.lastTime ts)
    (hT : ∀ t ∈ ts, t ≤ T) (hlT : l.lastTime ≤ T)
    (htok : 0 ≤ l.tokens) (hburst : 0 ≤ l.burst) (hrate : 0 ≤ l.tokenRate) :
    ((limiterRun l ts).2 : ℚ) ≤ l.tokens + l.tokenRate * (T - l.lastTime) := by
  induction ts generalizing l with
  | nil =>
    have hmul : (0 : ℚ) ≤ l.tokenRate * (T - l.lastTime) :=
      mul_nonneg hrate (by linarith)
    simp only [limiterRun, Nat.cast_zero]
    linarith
  | cons t ts' ih =>
    obtain ⟨hlt, hchain'⟩ := List.chain_cons.mp hchain
    have htT : t ≤ T := hT t (List.mem_cons_self t ts')
    have hT' : ∀ u ∈ ts', u ≤ T := fun u hu => hT u (List.mem_cons_of_mem _ hu)
    have hacc : (0 : ℚ) ≤ (t - l.lastTime) * l.tokenRate :=
      mul_nonneg (by linarith) hrate
    have hA0 : (0 : ℚ) ≤ (l.advance t).tokens := by
      rw [advance_tokens]
      exact le_min hburst (by linarith)
    have hA1 : (l.advance t).tokens ≤ l.tokens + (t - l.lastTime) * l.tokenRate := by
      rw [advance_tokens]
      exact min_le_right _ _
    have hsplit : l.tokenRate * (T - l.lastTime)
        = l.tokenRate * (T - t) + (t - l.lastTime) * l.tokenRate := by ring
    rw [limiterRun_cons]
    by_cases hg : (1 : ℚ) ≤ (l.advance t).tokens
    · rw [allowAt_grant l t hg]
      have hrec : ((limiterRun { l.advance t with tokens := (l.advance t).tokens - 1 } ts').2 : ℚ)
          ≤ ((l.advance t).tokens - 1) + l.tokenRate * (T - t) :=
        ih { l.advance t with tokens := (l.advance t).tokens - 1 }
          hchain' hT' htT (show (0 : ℚ) ≤ (l.advance t).tokens - 1 by linarith) hburst hrate
      dsimp only
      rw [if_pos (Eq.refl true)]
      push_cast
      linarith
    · rw [allowAt_deny l t hg]
      have hrec : ((limiterRun (l.advance t) ts').2 : ℚ)
          ≤ (l.advance t).tokens + l.tokenRate * (T - t) :=
        ih (l.advance t) hchain' hT' htT hA0 hburst hrate
      dsimp only
      rw [if_neg Bool.false_ne_true]
      push_cast
      linarith

/-- Claim C3, counterexample: `NewAPICachingProxy` called with frequency 60
still builds a limiter with refill rate 30, so the refill rate is not the
configured frequency. -/
theorem limiter_rate_ignores_frequency :
    (NewAPICachingProxy 6710 6710 60).limiter.tokenRate = 30
      ∧ (NewAPICachingProxy 6710 6710 60).frequency = 60
      ∧ (NewAPICachingProxy 6710 6710 60).limiter.tokenRate
          ≠ ((NewAPICachingProxy 6710 6710 60).frequency : ℚ) := by
  refine ⟨rfl, rfl, ?_⟩
  rw [NewAPICachingProxy]
  norm_num

/-- Claim C3, amended: the rate budget is a token bucket with capacity
(burst) 1 and a refill rate hard-coded to 30 per second regardless of the
configured frequency; over any request times within a window of `d` seconds
from construction at most `30 * d + 1` refreshes are granted; and every
request that fails to obtain a token (lock free) is answered with HTTP 200
from the cache, never with an error. -/
theorem token_bucket_burst_one_rate_thirty (o p f : Nat) (ts : List ℚ) (d : ℚ)
    (hchain : List.Chain (fun a b => a ≤ b) (NewAPICachingProxy o p f).limiter.lastTime ts)
    (hT : ∀ t ∈ ts, t ≤ d) (hd : 0 ≤ d)
    (st : ProxyState) (hlock : st.lockHeld = false)
    (rq : SessionRequest) (hrq : rq.allow = false) :
    (NewAPICachingProxy o p f).limiter.burst = 1
      ∧ (NewAPICachingProxy o p f).limiter.tokenRate = 30
      ∧ ((limiterRun (NewAPICachingProxy o p f).limiter ts).2 : ℚ) ≤ 30 * d + 1
      ∧ handleRequest st rq = (st, some (jsonReply st.cachedData)) := by
  refine ⟨rfl, rfl, ?_, ?_⟩
  · have h := limiterRun_grants_le ts (NewAPICachingProxy o p f).limiter d hchain hT
      (by simp only [NewAPICachingProxy]; exact hd) (by norm_num [NewAPICachingProxy])
      (by norm_num [NewAPICachingProxy]) (by norm_num [NewAPICachingProxy])
    rw [NewAPICachingProxy] at h
    dsimp only at h
    rw [NewAPICachingProxy]
    dsimp only
    linarith
  · simp [handleRequest, hrq, hlock]

/-- Witness for `token_bucket_burst_one_rate_thirty` at a single request at
time 0 within a zero-length window and one denied request. -/
theorem token_bucket_burst_one_rate_thirty_witness :
    (NewAPICachingProxy 6710 6710 30).limiter.burst = 1
      ∧ (NewAPICachingProxy 6710 6710 30).limiter.tokenRate = 30
      ∧ ((limiterRun (NewAPICachingProxy 6710 6710 30).limiter [0]).2 : ℚ) ≤ 30 * 0 + 1
      ∧ handleRequest initialProxyState { allow := false, getResult := none }
          = (initialProxyState, some (jsonReply initialProxyState.cachedData)) :=
  token_bucket_burst_one_rate_thirty 6710 6710 30 [0] 0
    (by constructor <;> simp [NewAPICachingProxy])
    (by intro t ht; simp at ht; simp [ht]) le_rfl
    initialProxyState rfl { allow := false, getResult := none } rfl

/-! ## API-port resolution in `main` -/

/-- Embedding of the port lookup in `main`:
`if v, ok := portsByName["gameHTTPAPI"]; !ok { evrApiPort = &v }`.
When the entry is absent (`!ok`), `v` is the zero value `0` and the flag
pointer is redirected to it; when the entry is present the branch is not
taken and the configured flag value is kept. -/
def resolveApiPort (portsByName : String → Option Nat) (httpPort : Nat) : Nat :=
  match portsByName "gameHTTPAPI" with
  | some _ => httpPort
  | none => 0

/-- Modelled from the spec: the intended contract for the API port (spec §9:
resolve the API port from the platform-assigned ports map when present, else
fall back to the configured default), which `main` does not implement. -/
def resolveApiPortIntended (portsByName : String → Option Nat) (httpPort : Nat) : Nat :=
  match portsByName "gameHTTPAPI" with
  | some v => v
  | none => httpPort

/-- Claim C4, code bug: with the platform map assigning `gameHTTPAPI = 7777`
and flag default 6710 the code keeps 6710, and with the entry absent it uses
the zero value 0 rather than the default — the exact inversion of the
intended contract, which yields 7777 and 6710 respectively. -/
theorem resolveApiPort_inverted :
    resolveApiPort (fun s => if s = "gameHTTPAPI" then some 7777 else none) 6710 = 6710
      ∧ resolveApiPortIntended (fun s => if s = "gameHTTPAPI" then some 7777 else none) 6710 = 7777
      ∧ resolveApiPort (fun _ => none) 6710 = 0
      ∧ resolveApiPortIntended (fun _ => none) 6710 = 6710 := by
  refine ⟨?_, ?_, rfl, rfl⟩ <;> simp [resolveApiPort, resolveApiPortIntended]

/-! ## FIFO log-drain setup in `NewGameEngine` -/

inductive FifoOp where
  | openReadOnly
  | mkfifo
  | mkfifoIfMissing
deriving DecidableEq

/-- Order of the FIFO operations in the log-drain goroutine of
`NewGameEngine`, as written in the source: `os.OpenFile(fifofn, O_RDONLY, 0)`
first, `syscall.Mkfifo(fifofn, 0666)` afterwards (and only if the open
succeeded, since an open failure is `log.Fatalf`). -/
def drainFifoOps : List FifoOp := [FifoOp.openReadOnly, FifoOp.mkfifo]

/-- Modelled from the spec: the drain task pre-creates the named pipe at the
fixed path if it does not already exist and only then opens and drains it. -/
def drainFifoOpsIntended : List FifoOp := [FifoOp.mkfifoIfMissing, FifoOp.openReadOnly]

/-- Execute FIFO setup steps against a filesystem where the FIFO either
already exists or not.  `openReadOnly` is fatal when the path is missing
("failed to open fifo file"); `mkfifo` is fatal with EEXIST when the path
already exists ("failed to create fifo file") and creates it otherwise;
`mkfifoIfMissing` creates the pipe only when missing and never fails. -/
def runFifoSetup (fifoExists : Bool) : List FifoOp → Except String Bool
  | [] => Except.ok fifoExists
  | FifoOp.openReadOnly :: rest =>
    if fifoExists then runFifoSetup fifoExists rest
    else Except.error "failed to open fifo file"
  | FifoOp.mkfifo :: rest =>
    if fifoExists then Except.error "failed to create fifo file"
    else runFifoSetup true rest
  | FifoOp.mkfifoIfMissing :: rest => runFifoSetup true rest

/-- Claim C7, code bug: the drain goroutine opens the FIFO first and calls
`Mkfifo` only afterwards, so the creation step does not precede the open
step; on a filesystem without the FIFO the open is fatal before any creation,
and with the FIFO present the late `Mkfifo` is fatal with EEXIST — while the
intended create-if-missing-then-open order succeeds from either state. -/
theorem drainFifo_open_before_create :
    drainFifoOps.head? = some FifoOp.openReadOnly
      ∧ runFifoSetup false drainFifoOps = Except.error "failed to open fifo file"
      ∧ runFifoSetup true drainFifoOps = Except.error "failed to create fifo file"
      ∧ runFifoSetup false drainFifoOpsIntended = Except.ok true
      ∧ runFifoSetup true drainFifoOpsIntended = Except.ok true := by
  refine ⟨rfl, rfl, rfl, rfl, rfl⟩

/-! ## Upstream fetch timeout (`handleRequest` / `queryAPI`) -/

/-- The deadline `handleRequest` computes for the context it passes to
`queryAPI`, in nanoseconds: `1000*time.Millisecond/30 - 3` with
`time.Millisecond = 10^6` ns and Go integer division. -/
def sessionFetchTimeoutNs : Nat := 1000 * 1000000 / 30 - 3

/-- Time `queryAPI` blocks, in nanoseconds, when the upstream takes
`upstreamDelayNs` to respond.  The call is `http.Get`, i.e. the default
client with no `Timeout` configured, and the `ctx` parameter carrying the
deadline is never consulted, so the call blocks for the upstream's full
delay whatever the deadline is. -/
def queryAPIElapsedNs (_ctxDeadlineNs upstreamDelayNs : Nat) : Nat := upstreamDelayNs

/-- Modelled from the spec: a GET bounded by the context deadline blocks at
most `ctxDeadlineNs` nanoseconds. -/
def queryAPIElapsedNsIntended (ctxDeadlineNs upstreamDelayNs : Nat) : Nat :=
  min ctxDeadlineNs upstreamDelayNs

/-- Claim C8, code bug: the computed deadline is 33333330 ns (≈ 1/30 s minus
a 3 ns margin), but the GET is issued through `http.Get`, which never sees
the deadline, so a permitted request with a 1-second upstream blocks the full
second instead of being cut off at the deadline. -/
theorem queryAPI_ignores_timeout :
    sessionFetchTimeoutNs = 33333330
      ∧ queryAPIElapsedNs sessionFetchTimeoutNs 1000000000 = 1000000000
      ∧ ¬ queryAPIElapsedNs sessionFetchTimeoutNs 1000000000 ≤ sessionFetchTimeoutNs
      ∧ queryAPIElapsedNsIntended sessionFetchTimeoutNs 1000000000 = sessionFetchTimeoutNs := by
  refine ⟨rfl, rfl, by decide, by decide⟩

/-! ## Login TCP proxy (`TCPProxy.Start`, `TCPProxy.handleConnection`) -/

inductive AcceptEvent where
  | acceptError
  | connection
deriving DecidableEq

inductive DialResult where
  | ok
  | dialError
deriving DecidableEq

/-- Embedding of `handleConnection`: a dial failure against the fixed login
origin is `log.Fatalf` — fatal for the sidecar on its first occurrence — and
a successful dial starts the duplex forwarders. -/
def handleConnection (dial : DialResult) : Except String Unit :=
  match dial with
  | DialResult.dialError => Except.error "Failed to connect"
  | DialResult.ok => Except.ok ()

/-- Embedding of the accept loop in `TCPProxy.Start`: an accept error is
logged (`log.Printf`) and the loop `continue`s; an accepted connection is
handled by `handleConnection`, whose fatal error terminates the sidecar.
Returns the fatal message if the loop ever terminates the sidecar. -/
def acceptLoop (dial : DialResult) : List AcceptEvent → Option String
  | [] => none
  | AcceptEvent.acceptError :: rest => acceptLoop dial rest
  | AcceptEvent.connection :: rest =>
    match handleConnection dial with
    | Except.error msg => some msg
    | Except.ok _ => acceptLoop dial rest

theorem acceptLoop_survives_accept_errors (dial : DialResult) (evs : List AcceptEvent)
    (herr : ∀ e ∈ evs, e = AcceptEvent.acceptError) :
    acceptLoop dial evs = none := by
  induction evs with
  | nil => rfl
  | cons e rest ih =>
    have he := herr e (List.mem_cons_self e rest)
    subst he
    exact ih fun u hu => herr u (List.mem_cons_of_mem _ hu)

theorem acceptLoop_dial_error_fatal_iff (evs : List AcceptEvent) :
    acceptLoop DialResult.dialError evs
      = if AcceptEvent.connection ∈ evs then some "Failed to connect" else none := by
  induction evs with
  | nil => rfl
  | cons e rest ih =>
    cases e with
    | acceptError =>
      rw [acceptLoop, ih]
      by_cases hc : AcceptEvent.connection ∈ rest
      · rw [if_pos hc, if_pos (List.mem_cons_of_mem _ hc)]
      · rw [if_neg hc, if_neg ?_]
        intro hmem
        rcases List.mem_cons.mp hmem with h1 | h2
        · exact AcceptEvent.noConfusion h1
        · exact hc h2
    | connection =>
      rw [acceptLoop]
      rw [if_pos (List.mem_cons_self _ _)]
      rfl

/-- Claim C10: in the login relay, any trace of listener accept errors is
survived — the loop just continues, never terminating the sidecar — while
with an unreachable login origin the loop is fatal exactly when a connection
is accepted: the dial error terminates the sidecar on its first occurrence. -/
theorem tcpProxy_accept_transient_dial_fatal (dial : DialResult) (evs : List AcceptEvent)
    (herr : ∀ e ∈ evs, e = AcceptEvent.acceptError) (evs2 : List AcceptEvent) :
    acceptLoop dial evs = none
      ∧ (acceptLoop DialResult.dialError evs2
          = if AcceptEvent.connection ∈ evs2 then some "Failed to connect" else none)
      ∧ handleConnection DialResult.dialError = Except.error "Failed to connect" :=
  ⟨acceptLoop_survives_accept_errors dial evs herr,
   acceptLoop_dial_error_fatal_iff evs2, rfl⟩

/-- Witness for `tcpProxy_accept_transient_dial_fatal`: two accept errors are
survived; a trace whose second event is a connection is fatal on dial error. -/
theorem tcpProxy_accept_transient_dial_fatal_witness :
    acceptLoop DialResult.ok [AcceptEvent.acceptError, AcceptEvent.acceptError] = none
      ∧ (acceptLoop DialResult.dialError [AcceptEvent.acceptError, AcceptEvent.connection]
          = if AcceptEvent.connection ∈ [AcceptEvent.acceptError, AcceptEvent.connection]
              then some "Failed to connect" else none)
      ∧ handleConnection DialResult.dialError = Except.error "Failed to connect" :=
  tcpProxy_accept_transient_dial_fatal DialResult.ok
    [AcceptEvent.acceptError, AcceptEvent.acceptError] (by decide)
    [AcceptEvent.acceptError, AcceptEvent.connection]

end EvrGameServer
